import Mathlib

/-!
Verification of the Monte Carlo options-pricing engine
(`src/monte_carlo/statistics.py`, `src/monte_carlo/parameters.py`,
`src/monte_carlo/options.py`) against its specification.

Numeric values (Python floats) are modelled over an arbitrary
`LinearOrderedField α`; claims that need only field arithmetic are
instantiated at `ℚ` (fully computable), while the simulation engine,
which uses `exp` and `sqrt`, is instantiated at `ℝ`.  A Python call
that can raise an exception (`ZeroDivisionError` from
`running_sum / paths_done`, `IndexError` from `[-1]` / `[0]` on an
empty list) is modelled as returning `none`.
-/

set_option maxHeartbeats 1000000

namespace OptionsPricing

section StatisticsDefs

variable {α : Type} [LinearOrderedField α]

/-- State of `StatisticsMean` (statistics.py lines 34-58): a running sum
and the number of paths fed so far. -/
structure StatisticsMean (α : Type) where
  running_sum : α
  paths_done : ℕ
deriving DecidableEq

/-- The constructor `StatisticsMean.__init__`: `running_sum = 0.0`,
`paths_done = 0`. -/
def StatisticsMean.init : StatisticsMean α := ⟨0, 0⟩

/-- Method `StatisticsMean.dump_one_result`:
`running_sum += result; paths_done += 1`. -/
def StatisticsMean.dump_one_result (s : StatisticsMean α) (result : α) :
    StatisticsMean α :=
  ⟨s.running_sum + result, s.paths_done + 1⟩

/-- Method `StatisticsMean.get_results_so_far`:
`return [[self.running_sum / self.paths_done]]`.  When `paths_done = 0`
the Python division raises `ZeroDivisionError`; that exceptional outcome
is the `none` branch. -/
def StatisticsMean.get_results_so_far (s : StatisticsMean α) :
    Option (List (List α)) :=
  if s.paths_done = 0 then none
  else some [[s.running_sum / (s.paths_done : α)]]

/-- State of `ConvergenceTable` (statistics.py lines 61-115).  The source
class is generic over the inner accumulator; every construction in this
program instantiates it with `StatisticsMean` (options.py lines 207 and
263), so the embedding fixes the inner accumulator to `StatisticsMean`.
A recorded row, built in Python by appending the integer `paths_done` to
a row of floats, is modelled as the pair (float row, paths tag). -/
structure ConvergenceTable (α : Type) where
  stats : StatisticsMean α
  results_so_far : List (List α × ℕ)
  stopping_point : ℕ
  paths_done : ℕ
deriving DecidableEq

/-- The constructor `ConvergenceTable.__init__` applied to a fresh
`StatisticsMean()` as the facades do: empty storage, `stopping_point = 2`,
`paths_done = 0`. -/
def ConvergenceTable.init : ConvergenceTable α :=
  ⟨StatisticsMean.init, [], 2, 0⟩

/-- Method `ConvergenceTable.dump_one_result` (statistics.py lines 80-98):
forward to the inner accumulator, increment `paths_done`, and when
`paths_done` hits `stopping_point`, double the stopping point
(`math.ceil(sp * 2) = 2 * sp` on an integer) and move the inner
accumulator's current rows, each tagged with `paths_done`, into storage.
The inner `get_results_so_far` call can in principle raise; `none`
propagates that (it never fires because the inner accumulator was just
fed, but the embedding keeps the source's control flow). -/
def ConvergenceTable.dump_one_result (t : ConvergenceTable α) (result : α) :
    Option (ConvergenceTable α) :=
  let stats := t.stats.dump_one_result result
  let paths_done := t.paths_done + 1
  if paths_done = t.stopping_point then
    match stats.get_results_so_far with
    | none => none
    | some this_result =>
        some ⟨stats,
              t.results_so_far ++ this_result.map (fun row => (row, paths_done)),
              t.stopping_point * 2,
              paths_done⟩
  else
    some ⟨stats, t.results_so_far, t.stopping_point, paths_done⟩

/-- Method `ConvergenceTable.get_results_so_far` (statistics.py lines
100-115): shallow-copy the stored rows, and when `paths_done` differs
from the current `stopping_point`, additionally append a live row from
the inner accumulator tagged with `paths_done`.  `none` models the
exception raised when the inner accumulator has no data. -/
def ConvergenceTable.get_results_so_far (t : ConvergenceTable α) :
    Option (List (List α × ℕ)) :=
  if t.paths_done ≠ t.stopping_point then
    match t.stats.get_results_so_far with
    | none => none
    | some this_result =>
        some (t.results_so_far ++ this_result.map (fun row => (row, t.paths_done)))
  else some t.results_so_far

/-- The query as a state transformer.  The Python method builds its
return value from `self.results_so_far.copy()` and freshly constructed
rows of the inner accumulator, and assigns no attribute, so the object
state after the call is exactly the state before it. -/
def ConvergenceTable.get_results_state (t : ConvergenceTable α) :
    Option (List (List α × ℕ)) × ConvergenceTable α :=
  (t.get_results_so_far, t)

/-- Feeding a list of results one by one, propagating any exception. -/
def ConvergenceTable.dump_list (t : ConvergenceTable α) :
    List α → Option (ConvergenceTable α)
  | [] => some t
  | r :: rs => (t.dump_one_result r).bind (fun u => u.dump_list rs)

/-- States of a `ConvergenceTable` reachable in the program: the fresh
table wrapping a fresh `StatisticsMean`, closed under successful
`dump_one_result` steps. -/
inductive ConvergenceTable.Reachable : ConvergenceTable α → Prop
  | init : ConvergenceTable.Reachable ConvergenceTable.init
  | step {t t' : ConvergenceTable α} {r : α} : ConvergenceTable.Reachable t →
      t.dump_one_result r = some t' → ConvergenceTable.Reachable t'

/-- The doubling snapshot schedule named by the specification: the prefix
of `2, 4, 8, 16, …` not exceeding `N`. -/
def sched (N : ℕ) : List ℕ :=
  ((List.range N).map (fun k => 2 ^ (k + 1))).filter (fun m => decide (m ≤ N))

end StatisticsDefs

section PayOffDefs

variable {α : Type} [LinearOrderedField α]

/-- The payoff classes of options.py lines 11-104, as a closed variant:
`PayOffCall(strike)`, `PayOffPut(strike)`, and
`PayOffDoubleDigital(lower_level, upper_level)`. -/
inductive PayOff (α : Type)
  | call (strike : α)
  | put (strike : α)
  | doubleDigital (lower_level upper_level : α)

/-- The `calc` methods: `max(spot - strike, 0)` for a call,
`max(strike - spot, 0)` for a put, and for a double digital `0` when
`spot <= lower_level`, `0` when `spot >= upper_level`, else `1`. -/
def PayOff.calc : PayOff α → α → α
  | .call strike, spot => max (spot - strike) 0
  | .put strike, spot => max (strike - spot) 0
  | .doubleDigital lower_level upper_level, spot =>
      if spot ≤ lower_level then 0
      else if upper_level ≤ spot then 0
      else 1

/-- `VanillaOption` (options.py lines 107-142): an expiry and a payoff. -/
structure VanillaOption (α : Type) where
  expiry : α
  pay_off : PayOff α

/-- Method `VanillaOption.get_expiry`. -/
def VanillaOption.get_expiry (o : VanillaOption α) : α := o.expiry

/-- Method `VanillaOption.calc_pay_off`. -/
def VanillaOption.calc_pay_off (o : VanillaOption α) (spot : α) : α :=
  o.pay_off.calc spot

end PayOffDefs

section SimulationDefs

/-- The `Parameters` contract (parameters.py): a deterministic function of
time exposing a definite integral and an integral of its square over an
interval. -/
structure Parameters where
  integral : ℝ → ℝ → ℝ
  integral_square : ℝ → ℝ → ℝ

/-- `ParametersConstant(c)` (parameters.py lines 41-81):
`integral = (t2 - t1) * c` and, through the precomputed
`constant_square = c * c`, `integral_square = (t2 - t1) * (c * c)`. -/
def ParametersConstant (constant : ℝ) : Parameters :=
  ⟨fun time1 time2 => (time2 - time1) * constant,
   fun time1 time2 => (time2 - time1) * (constant * constant)⟩

/-- State of Python's process-wide `random` module as this program uses
it: the seed last installed and how many `gauss(0, 1)` draws have been
made since.  The variate stream itself is abstracted as a function
`g : ℤ → ℕ → ℝ` giving the i-th draw after seeding with s; a fixed `g`
models one fixed, order-preserving generator algorithm. -/
structure RandomState where
  seed : ℤ
  idx : ℕ
deriving DecidableEq

/-- `random.seed(seed)` is called iff `seed is not None` (options.py
lines 167-168); otherwise the ambient generator state is used as-is. -/
def RandomState.reseed (seed : Option ℤ) (rng : RandomState) : RandomState :=
  match seed with
  | some s => ⟨s, 0⟩
  | none => rng

/-- The per-path loop of `Simulation.option_price` (options.py lines
176-180), run `n` times: draw `this_gaussian`, form
`this_spot = moved_spot * exp(root_variance * this_gaussian)`, evaluate
`this_payoff`, and feed `discounting * this_payoff` to the gatherer.
The gatherer is abstract, exactly as in the source where any
`StatisticsMC` may be passed; its `dump_one_result` may raise, which the
`Option` propagates. -/
noncomputable def simLoop (g : ℤ → ℕ → ℝ) (option : VanillaOption ℝ)
    (moved_spot root_variance discounting : ℝ) {σ : Type}
    (dump : σ → ℝ → Option σ) :
    ℕ → σ → RandomState → Option (σ × RandomState)
  | 0, gatherer, rng => some (gatherer, rng)
  | Nat.succ n, gatherer, rng =>
      let this_gaussian := g rng.seed rng.idx
      let this_spot := moved_spot * Real.exp (root_variance * this_gaussian)
      let this_payoff := option.calc_pay_off this_spot
      (dump gatherer (discounting * this_payoff)).bind
        (fun gatherer' =>
          simLoop g option moved_spot root_variance discounting dump n
            gatherer' ⟨rng.seed, rng.idx + 1⟩)

/-- `Simulation.option_price` (options.py lines 150-180).  Python's
`range(number_of_paths)` on a non-positive int yields no iterations,
hence `number_of_paths.toNat` loop rounds. -/
noncomputable def Simulation.option_price (g : ℤ → ℕ → ℝ)
    (option : VanillaOption ℝ) (spot : ℝ) (vol r : Parameters)
    (number_of_paths : ℤ) {σ : Type} (dump : σ → ℝ → Option σ)
    (gatherer : σ) (seed : Option ℤ) (rng : RandomState) :
    Option (σ × RandomState) :=
  let rng' := RandomState.reseed seed rng
  let expiry := option.get_expiry
  let variance := vol.integral_square 0 expiry
  let root_variance := Real.sqrt variance
  let ito_correction := -0.5 * variance
  let moved_spot := spot * Real.exp (r.integral 0 expiry + ito_correction)
  let discounting := Real.exp (-(r.integral 0 expiry))
  simLoop g option moved_spot root_variance discounting dump
    number_of_paths.toNat gatherer rng'

/-- Folding a fallible `dump_one_result` over a list of incoming results;
used to describe the exact sequence of values the simulation feeds. -/
def dumpFold {σ β : Type} (dump : σ → β → Option σ) : σ → List β → Option σ
  | gatherer, [] => some gatherer
  | gatherer, r :: rs => (dump gatherer r).bind (fun g2 => dumpFold dump g2 rs)

/-- A pure trace accumulator: its state is exactly the list of values fed
to it, in order. -/
def traceDump : List ℝ → ℝ → Option (List ℝ) :=
  fun acc r => some (acc ++ [r])

/-- Modelled from the spec's algorithm description (spec section 4.3,
steps 3-7): the value the i-th iteration ought to feed, namely
`exp(-R) * payoff(spot * exp(R - V/2) * exp(sqrt(V) * z_i))` with
`R = rate.integral(0, expiry)`, `V = vol.integral_square(0, expiry)` and
`z_i` the i-th draw after the effective seeding. -/
noncomputable def specPathValue (g : ℤ → ℕ → ℝ) (option : VanillaOption ℝ)
    (spot : ℝ) (vol r : Parameters) (s : ℤ) (i : ℕ) : ℝ :=
  Real.exp (-(r.integral 0 option.get_expiry)) *
    option.calc_pay_off
      (spot *
        Real.exp (r.integral 0 option.get_expiry -
          vol.integral_square 0 option.get_expiry / 2) *
        Real.exp (Real.sqrt (vol.integral_square 0 option.get_expiry) * g s i))

/-- `CalcEuropeanOption.call_price_stats` (options.py lines 188-218):
wrap a fresh `StatisticsMean` in a `ConvergenceTable`, build the call
option with constant vol and rate parameters, run the simulation, return
the gatherer. -/
noncomputable def CalcEuropeanOption.call_price_stats (g : ℤ → ℕ → ℝ)
    (strike expiry spot vol r : ℝ) (number_of_paths : ℤ)
    (seed : Option ℤ) (rng : RandomState) :
    Option (ConvergenceTable ℝ × RandomState) :=
  Simulation.option_price g ⟨expiry, PayOff.call strike⟩ spot
    (ParametersConstant vol) (ParametersConstant r) number_of_paths
    ConvergenceTable.dump_one_result ConvergenceTable.init seed rng

/-- `CalcEuropeanOption.call_price` (options.py lines 220-242):
`call_price_stats(...).get_results_so_far()[-1][0]`.  Python `[-1]` and
`[0]` raise on empty lists, hence the `Option` chain. -/
noncomputable def CalcEuropeanOption.call_price (g : ℤ → ℕ → ℝ)
    (strike expiry spot vol r : ℝ) (number_of_paths : ℤ)
    (seed : Option ℤ) (rng : RandomState) : Option ℝ :=
  (CalcEuropeanOption.call_price_stats g strike expiry spot vol r
      number_of_paths seed rng).bind
    (fun p => p.1.get_results_so_far.bind
      (fun rows => rows.getLast?.bind (fun row => row.1.head?)))

/-- `CalcEuropeanOption.put_price_stats` (options.py lines 244-274). -/
noncomputable def CalcEuropeanOption.put_price_stats (g : ℤ → ℕ → ℝ)
    (strike expiry spot vol r : ℝ) (number_of_paths : ℤ)
    (seed : Option ℤ) (rng : RandomState) :
    Option (ConvergenceTable ℝ × RandomState) :=
  Simulation.option_price g ⟨expiry, PayOff.put strike⟩ spot
    (ParametersConstant vol) (ParametersConstant r) number_of_paths
    ConvergenceTable.dump_one_result ConvergenceTable.init seed rng

/-- `CalcEuropeanOption.put_price` (options.py lines 276-298). -/
noncomputable def CalcEuropeanOption.put_price (g : ℤ → ℕ → ℝ)
    (strike expiry spot vol r : ℝ) (number_of_paths : ℤ)
    (seed : Option ℤ) (rng : RandomState) : Option ℝ :=
  (CalcEuropeanOption.put_price_stats g strike expiry spot vol r
      number_of_paths seed rng).bind
    (fun p => p.1.get_results_so_far.bind
      (fun rows => rows.getLast?.bind (fun row => row.1.head?)))

/-- A degenerate normal-variate stream used for concrete evaluations. -/
def gZero : ℤ → ℕ → ℝ := fun _ _ => 0

/-- A stream whose first three draws are `0, 0, 1`. -/
noncomputable def gThird : ℤ → ℕ → ℝ := fun _ i => if i = 2 then 1 else 0

/-- An arbitrary ambient generator state for concrete evaluations. -/
def rngZero : RandomState := ⟨0, 0⟩

/-- A concrete option used in witnesses. -/
def optZero : VanillaOption ℝ := ⟨0, PayOff.call 0⟩

end SimulationDefs

section StatisticsLemmas

variable {α : Type} [LinearOrderedField α]

lemma StatisticsMean.foldl_dump (s : StatisticsMean α) (rs : List α) :
    rs.foldl StatisticsMean.dump_one_result s =
      ⟨s.running_sum + rs.sum, s.paths_done + rs.length⟩ := by
  induction rs generalizing s with
  | nil => simp
  | cons r rs ih =>
      simp only [List.foldl_cons, ih, StatisticsMean.dump_one_result,
        List.sum_cons, List.length_cons]
      exact congrArg₂ StatisticsMean.mk (by ring) (by omega)

lemma ConvergenceTable.dump_list_append (t : ConvergenceTable α)
    (xs ys : List α) :
    t.dump_list (xs ++ ys) = (t.dump_list xs).bind (fun u => u.dump_list ys) := by
  induction xs generalizing t with
  | nil => simp [ConvergenceTable.dump_list]
  | cons x xs ih =>
      simp only [List.cons_append, ConvergenceTable.dump_list]
      cases t.dump_one_result x with
      | none => simp
      | some u => simp [ih u]

lemma ConvergenceTable.dump_list_singleton (t : ConvergenceTable α) (r : α) :
    t.dump_list [r] = t.dump_one_result r := by
  simp only [ConvergenceTable.dump_list]
  cases t.dump_one_result r <;> rfl

lemma ConvergenceTable.dump_one_hit {t : ConvergenceTable α} {r : α}
    (h : t.paths_done + 1 = t.stopping_point) :
    t.dump_one_result r =
      some ⟨t.stats.dump_one_result r,
            t.results_so_far ++
              [([(t.stats.running_sum + r) / ((t.stats.paths_done + 1 : ℕ) : α)],
                t.paths_done + 1)],
            t.stopping_point * 2, t.paths_done + 1⟩ := by
  simp [ConvergenceTable.dump_one_result, h, StatisticsMean.dump_one_result,
    StatisticsMean.get_results_so_far]

lemma ConvergenceTable.dump_one_miss {t : ConvergenceTable α} {r : α}
    (h : t.paths_done + 1 ≠ t.stopping_point) :
    t.dump_one_result r =
      some ⟨t.stats.dump_one_result r, t.results_so_far, t.stopping_point,
            t.paths_done + 1⟩ := by
  simp [ConvergenceTable.dump_one_result, h]

lemma ConvergenceTable.reachable_invariant {t : ConvergenceTable α}
    (h : t.Reachable) :
    t.paths_done < t.stopping_point ∧ t.stats.paths_done = t.paths_done := by
  induction h with
  | init => exact ⟨by norm_num [ConvergenceTable.init], rfl⟩
  | @step t t' r hr hd ih =>
      by_cases hc : t.paths_done + 1 = t.stopping_point
      · rw [ConvergenceTable.dump_one_hit hc] at hd
        injection hd with hd
        subst hd
        refine ⟨by dsimp only; omega, ?_⟩
        simp [StatisticsMean.dump_one_result, ih.2]
      · rw [ConvergenceTable.dump_one_miss hc] at hd
        injection hd with hd
        subst hd
        refine ⟨by dsimp only; omega, ?_⟩
        simp [StatisticsMean.dump_one_result, ih.2]

lemma ConvergenceTable.get_spec {t : ConvergenceTable α}
    (hlt : t.paths_done < t.stopping_point)
    (hpd : t.stats.paths_done = t.paths_done) (h1 : 1 ≤ t.paths_done) :
    t.get_results_so_far =
      some (t.results_so_far ++
        [([t.stats.running_sum / (t.stats.paths_done : α)], t.paths_done)]) := by
  have hne : t.paths_done ≠ t.stopping_point := Nat.ne_of_lt hlt
  have hz' : t.paths_done ≠ 0 := by omega
  rw [ConvergenceTable.get_results_so_far, if_pos hne,
    StatisticsMean.get_results_so_far, hpd, if_neg hz']
  simp

lemma ConvergenceTable.dump_list_spec (rs : List α) :
    ∃ k t, 1 ≤ k ∧ rs.length < 2 ^ k ∧
      ((rs.length ≤ 1 ∧ k = 1) ∨ 2 ^ (k - 1) ≤ rs.length) ∧
      (ConvergenceTable.init : ConvergenceTable α).dump_list rs = some t ∧
      t.stats = ⟨rs.sum, rs.length⟩ ∧
      t.paths_done = rs.length ∧
      t.stopping_point = 2 ^ k ∧
      t.results_so_far.map Prod.snd =
        (List.range (k - 1)).map (fun i => 2 ^ (i + 1)) := by
  induction rs using List.reverseRecOn with
  | nil =>
      exact ⟨1, ConvergenceTable.init, le_refl 1, by norm_num,
        Or.inl ⟨by norm_num, rfl⟩, rfl, rfl, rfl, by norm_num [ConvergenceTable.init], rfl⟩
  | append_singleton rs r ih =>
      obtain ⟨k, t, hk, hlt, hdisj, hdl, hstats, hpd, hsp, htags⟩ := ih
      have hpow : 0 < (2 : ℕ) ^ k := Nat.pos_pow_of_pos k (by norm_num)
      have hdl' : (ConvergenceTable.init : ConvergenceTable α).dump_list (rs ++ [r]) =
          t.dump_one_result r := by
        rw [ConvergenceTable.dump_list_append, hdl, Option.some_bind,
          ConvergenceTable.dump_list_singleton]
      by_cases hc : rs.length + 1 = 2 ^ k
      · obtain ⟨m, rfl⟩ : ∃ m, k = m + 1 := ⟨k - 1, by omega⟩
        have hc' : t.paths_done + 1 = t.stopping_point := by rw [hpd, hsp]; exact hc
        refine ⟨m + 2, _, by omega, ?_, ?_,
          by rw [hdl', ConvergenceTable.dump_one_hit hc'], ?_, ?_, ?_, ?_⟩
        · simp only [List.length_append, List.length_singleton]
          calc rs.length + 1 = 2 ^ (m + 1) := hc
            _ < 2 ^ (m + 2) := by
              rw [pow_succ (2 : ℕ) (m + 1)]
              have : 0 < (2 : ℕ) ^ (m + 1) := Nat.pos_pow_of_pos _ (by norm_num)
              omega
        · right
          have hred : m + 2 - 1 = m + 1 := rfl
          simp only [List.length_append, List.length_singleton, hred]
          omega
        · simp [hstats, StatisticsMean.dump_one_result]
        · simp [hpd]
        · simp only [hsp]
          rw [← pow_succ (2 : ℕ) (m + 1)]
        · have hred : m + 2 - 1 = m + 1 := rfl
          rw [hred, List.range_succ, List.map_append]
          simp only [List.map_append, htags, Nat.add_sub_cancel, List.map_cons,
            List.map_nil]
          rw [hpd, hc]
      · have hc' : t.paths_done + 1 ≠ t.stopping_point := by rw [hpd, hsp]; exact hc
        refine ⟨k, _, hk, ?_, ?_,
          by rw [hdl', ConvergenceTable.dump_one_miss hc'], ?_, ?_, ?_, ?_⟩
        · simp only [List.length_append, List.length_singleton]
          omega
        · simp only [List.length_append, List.length_singleton]
          rcases hdisj with ⟨hN1, hk1⟩ | hge
          · subst hk1
            have h01 : rs.length = 0 ∨ rs.length = 1 := by omega
            rcases h01 with h0 | h1
            · exact Or.inl ⟨by omega, rfl⟩
            · exact absurd (by rw [h1]; norm_num : rs.length + 1 = 2 ^ 1) hc
          · exact Or.inr (by omega)
        · simp [hstats, StatisticsMean.dump_one_result]
        · simp [hpd]
        · simpa using hsp
        · simpa using htags

lemma sched_eq_of_bounds {k N : ℕ} (hlt : N < 2 ^ k)
    (hdisj : (N ≤ 1 ∧ k = 1) ∨ 2 ^ (k - 1) ≤ N) :
    sched N = (List.range (k - 1)).map (fun i => 2 ^ (i + 1)) := by
  have hkN : k - 1 ≤ N := by
    rcases hdisj with ⟨_, h⟩ | h
    · omega
    · have := Nat.lt_two_pow (k - 1); omega
  have hrange : List.range N =
      List.range (k - 1) ++ (List.range (N - (k - 1))).map (fun x => (k - 1) + x) := by
    rw [← List.range_add]; congr 1; omega
  unfold sched
  rw [hrange, List.map_append, List.filter_append]
  have h1 : ((List.range (k - 1)).map (fun i => 2 ^ (i + 1))).filter
      (fun m => decide (m ≤ N)) = (List.range (k - 1)).map (fun i => 2 ^ (i + 1)) := by
    apply List.filter_eq_self.mpr
    intro a ha
    simp only [List.mem_map, List.mem_range] at ha
    obtain ⟨i, hi, rfl⟩ := ha
    simp only [decide_eq_true_eq]
    rcases hdisj with ⟨hN1, hk1⟩ | hge
    · omega
    · exact le_trans (Nat.pow_le_pow_right (by norm_num) (by omega)) hge
  have h2 : (((List.range (N - (k - 1))).map (fun x => (k - 1) + x)).map
      (fun i => 2 ^ (i + 1))).filter (fun m => decide (m ≤ N)) = [] := by
    apply List.filter_eq_nil_iff.mpr
    intro a ha
    simp only [List.map_map, List.mem_map, List.mem_range, Function.comp] at ha
    obtain ⟨x, hx, rfl⟩ := ha
    simp only [decide_eq_true_eq, not_le]
    calc N < 2 ^ k := hlt
      _ ≤ 2 ^ (k - 1 + x + 1) := Nat.pow_le_pow_right (by norm_num) (by omega)
  rw [h1, h2, List.append_nil]

end StatisticsLemmas

section StatisticsClaims

/-- Claim C1 (amended): for every nonempty result sequence fed to a fresh
`ConvergenceTable` wrapping a `StatisticsMean`, `get_results_so_far`
returns rows whose `pathsUsed` tags are exactly the doubling prefix
`2, 4, 8, …` not exceeding `N` followed by one final live row tagged
`N = rs.length`.  The final row is appended unconditionally — the query
compares `paths_done` with the already-doubled `stopping_point` — so when
`N` is itself a doubling value its tag duplicates the last recorded tag
and the sequence is not strictly increasing; the last row's tag always
equals `N`. -/
theorem convergence_table_schedule (rs : List ℚ) (h : rs ≠ []) :
    ∃ t rows,
      (ConvergenceTable.init : ConvergenceTable ℚ).dump_list rs = some t ∧
      t.get_results_so_far = some rows ∧
      rows.map Prod.snd = sched rs.length ++ [rs.length] ∧
      (rows.map Prod.snd).getLast? = some rs.length := by
  obtain ⟨k, t, hk, hlt, hdisj, hdl, hstats, hpd, hsp, htags⟩ :=
    ConvergenceTable.dump_list_spec (α := ℚ) rs
  have hN : 1 ≤ rs.length := List.length_pos.mpr h
  have hget := ConvergenceTable.get_spec (t := t)
    (by rw [hpd, hsp]; exact hlt) (by rw [hstats, hpd]) (by rw [hpd]; exact hN)
  refine ⟨t, _, hdl, hget, ?_, ?_⟩
  · rw [List.map_append, htags, ← sched_eq_of_bounds hlt hdisj]
    simp [hpd]
  · rw [List.map_append]
    simp [hpd]

/-- Witness for the C1 theorem at the concrete input `rs = [1, 2, 3]`. -/
theorem convergence_table_schedule_witness :
    ([1, 2, 3] : List ℚ) ≠ [] ∧
    (∃ t rows,
      (ConvergenceTable.init : ConvergenceTable ℚ).dump_list [1, 2, 3] = some t ∧
      t.get_results_so_far = some rows ∧
      rows.map Prod.snd =
        sched ([1, 2, 3] : List ℚ).length ++ [([1, 2, 3] : List ℚ).length] ∧
      (rows.map Prod.snd).getLast? = some ([1, 2, 3] : List ℚ).length) :=
  ⟨by simp, convergence_table_schedule [1, 2, 3] (by simp)⟩

/-- Claim C1 counterexample: after exactly `N = 2` results, the rows
returned by `get_results_so_far` carry `pathsUsed` tags `[2, 2]` — the
snapshot recorded at 2 paths and the unconditionally appended live row —
which is not strictly increasing and differs from the schedule
`sched 2 = [2]` the claim predicts for an `N` that is already a doubling
value. -/
theorem convergence_table_schedule_cex :
    ((ConvergenceTable.init : ConvergenceTable ℚ).dump_list [0, 0]).bind
        ConvergenceTable.get_results_so_far = some [([0], 2), ([0], 2)] ∧
    ¬ List.Chain' (fun a b => a < b)
        (List.map Prod.snd [(([0] : List ℚ), 2), ([0], 2)]) ∧
    List.map Prod.snd [(([0] : List ℚ), 2), ([0], 2)] ≠ sched 2 := by
  refine ⟨?_, ?_, ?_⟩
  · norm_num [ConvergenceTable.dump_list, ConvergenceTable.dump_one_result,
      ConvergenceTable.get_results_so_far, ConvergenceTable.init,
      StatisticsMean.init, StatisticsMean.dump_one_result,
      StatisticsMean.get_results_so_far]
  · simp [List.chain'_cons]
  · decide

/-- Claim C4: feeding results `r1..rn` (n ≥ 1) to a fresh
`StatisticsMean` leaves `running_sum = r1 + ... + rn` and
`paths_done = n`, and `get_results_so_far` returns the single row
`[[sum / n]]`, the arithmetic mean. -/
theorem statistics_mean_correct (rs : List ℚ) (h : rs ≠ []) :
    (rs.foldl StatisticsMean.dump_one_result StatisticsMean.init).running_sum =
      rs.sum ∧
    (rs.foldl StatisticsMean.dump_one_result StatisticsMean.init).paths_done =
      rs.length ∧
    (rs.foldl StatisticsMean.dump_one_result StatisticsMean.init).get_results_so_far =
      some [[rs.sum / (rs.length : ℚ)]] := by
  have hfold := StatisticsMean.foldl_dump (StatisticsMean.init : StatisticsMean ℚ) rs
  have hlen : rs.length ≠ 0 := by simpa using (List.length_pos.mpr h).ne'
  rw [hfold]
  refine ⟨by simp [StatisticsMean.init], by simp [StatisticsMean.init], ?_⟩
  simp [StatisticsMean.get_results_so_far, StatisticsMean.init, hlen]

/-- Witness for the C4 theorem at the concrete input `rs = [1, 2]`. -/
theorem statistics_mean_correct_witness :
    ([1, 2] : List ℚ) ≠ [] ∧
    ((([1, 2] : List ℚ).foldl StatisticsMean.dump_one_result
        StatisticsMean.init).running_sum = ([1, 2] : List ℚ).sum ∧
     (([1, 2] : List ℚ).foldl StatisticsMean.dump_one_result
        StatisticsMean.init).paths_done = ([1, 2] : List ℚ).length ∧
     (([1, 2] : List ℚ).foldl StatisticsMean.dump_one_result
        StatisticsMean.init).get_results_so_far =
      some [[([1, 2] : List ℚ).sum / (([1, 2] : List ℚ).length : ℚ)]]) :=
  ⟨by simp, statistics_mean_correct [1, 2] (by simp)⟩

/-- Claim C6: for `lower_level < upper_level` the double-digital payoff
returns 1 exactly when `lower_level < spot < upper_level`, strict on
both sides, and 0 otherwise; in particular it pays 0 at both bounds and
1 at the midpoint. -/
theorem double_digital_payoff (lower_level upper_level spot : ℚ)
    (h : lower_level < upper_level) :
    (PayOff.doubleDigital lower_level upper_level).calc spot =
      (if lower_level < spot ∧ spot < upper_level then 1 else 0) ∧
    (PayOff.doubleDigital lower_level upper_level).calc lower_level = 0 ∧
    (PayOff.doubleDigital lower_level upper_level).calc upper_level = 0 ∧
    (PayOff.doubleDigital lower_level upper_level).calc
      ((lower_level + upper_level) / 2) = 1 := by
  refine ⟨?_, ?_, ?_, ?_⟩
  · by_cases hin : lower_level < spot ∧ spot < upper_level
    · rw [if_pos hin]
      simp only [PayOff.calc]
      rw [if_neg (not_le.mpr hin.1), if_neg (not_le.mpr hin.2)]
    · rw [if_neg hin]
      push_neg at hin
      simp only [PayOff.calc]
      by_cases h1 : spot ≤ lower_level
      · rw [if_pos h1]
      · push_neg at h1
        rw [if_neg (not_le.mpr h1), if_pos (hin h1)]
  · simp only [PayOff.calc]
    rw [if_pos le_rfl]
  · simp only [PayOff.calc]
    rw [if_neg (not_le.mpr h), if_pos le_rfl]
  · simp only [PayOff.calc]
    rw [if_neg (not_le.mpr (by linarith)), if_neg (not_le.mpr (by linarith))]

/-- Witness for the C6 theorem at `lower = 0`, `upper = 2`, `spot = 1`. -/
theorem double_digital_payoff_witness :
    (0 : ℚ) < 2 ∧
    ((PayOff.doubleDigital (0 : ℚ) 2).calc 1 = (if (0 : ℚ) < 1 ∧ (1 : ℚ) < 2 then 1 else 0) ∧
     (PayOff.doubleDigital (0 : ℚ) 2).calc 0 = 0 ∧
     (PayOff.doubleDigital (0 : ℚ) 2).calc 2 = 0 ∧
     (PayOff.doubleDigital (0 : ℚ) 2).calc ((0 + 2) / 2) = 1) :=
  ⟨by norm_num, double_digital_payoff 0 2 1 (by norm_num)⟩

/-- Claim C7: querying a `StatisticsMean` that has never been fed a
result (`paths_done = 0`) fails — in the source the division
`running_sum / paths_done` raises an exception at the point of
violation, modelled by the `none` outcome — rather than silently
returning NaN, infinity or any sentinel value. -/
theorem mean_query_no_data_fails (s : StatisticsMean ℚ)
    (h : s.paths_done = 0) :
    s.get_results_so_far = none := by
  simp [StatisticsMean.get_results_so_far, h]

/-- Witness for the C7 theorem at the freshly constructed accumulator. -/
theorem mean_query_no_data_fails_witness :
    (StatisticsMean.init : StatisticsMean ℚ).paths_done = 0 ∧
    (StatisticsMean.init : StatisticsMean ℚ).get_results_so_far = none :=
  ⟨rfl, mean_query_no_data_fails _ rfl⟩

/-- Claim C9: in every reachable `ConvergenceTable` state the query is
idempotent and mutation-free: `get_results_so_far` leaves the state (in
particular the recorded sequence) unchanged — the source builds its
return value from a shallow copy and fresh inner rows — and a repeated
query returns the same value. -/
theorem convergence_query_idempotent (t : ConvergenceTable ℚ)
    (h : t.Reachable) :
    t.get_results_state.2 = t ∧
    t.get_results_state.2.get_results_state = t.get_results_state ∧
    t.get_results_state.2.results_so_far = t.results_so_far :=
  ⟨rfl, rfl, rfl⟩

/-- Witness for the C9 theorem at the freshly constructed table. -/
theorem convergence_query_idempotent_witness :
    (ConvergenceTable.init : ConvergenceTable ℚ).Reachable ∧
    ((ConvergenceTable.init : ConvergenceTable ℚ).get_results_state.2 =
        ConvergenceTable.init ∧
     (ConvergenceTable.init : ConvergenceTable ℚ).get_results_state.2.get_results_state =
        (ConvergenceTable.init : ConvergenceTable ℚ).get_results_state ∧
     (ConvergenceTable.init : ConvergenceTable ℚ).get_results_state.2.results_so_far =
        (ConvergenceTable.init : ConvergenceTable ℚ).results_so_far) :=
  ⟨ConvergenceTable.Reachable.init,
   convergence_query_idempotent _ ConvergenceTable.Reachable.init⟩

/-- Claim C10 (amended): in every reachable state
`paths_done < stopping_point` — the threshold is doubled in the very
step in which `paths_done` reaches it — so the live-row branch of the
query always runs.  Once at least one result has been dumped the query
succeeds and returns the recorded rows plus exactly one extra row,
tagged with the current `paths_done`; with zero dumps the live branch
still runs but the inner mean accumulator fails on no data, so no row
list is returned at all. -/
theorem convergence_live_branch (t : ConvergenceTable ℚ) (h : t.Reachable) :
    t.paths_done < t.stopping_point ∧
    (1 ≤ t.paths_done →
      t.get_results_so_far =
        some (t.results_so_far ++
          [([t.stats.running_sum / (t.stats.paths_done : ℚ)], t.paths_done)])) := by
  obtain ⟨hlt, hpd⟩ := ConvergenceTable.reachable_invariant h
  exact ⟨hlt, fun h1 => ConvergenceTable.get_spec hlt hpd h1⟩

/-- Witness for the C10 theorem at the reachable state after one dump. -/
theorem convergence_live_branch_witness :
    (⟨⟨1, 1⟩, [], 2, 1⟩ : ConvergenceTable ℚ).Reachable ∧
    ((⟨⟨1, 1⟩, [], 2, 1⟩ : ConvergenceTable ℚ).paths_done <
        (⟨⟨1, 1⟩, [], 2, 1⟩ : ConvergenceTable ℚ).stopping_point ∧
     (1 ≤ (⟨⟨1, 1⟩, [], 2, 1⟩ : ConvergenceTable ℚ).paths_done →
        (⟨⟨1, 1⟩, [], 2, 1⟩ : ConvergenceTable ℚ).get_results_so_far =
          some ((⟨⟨1, 1⟩, [], 2, 1⟩ : ConvergenceTable ℚ).results_so_far ++
            [([(⟨⟨1, 1⟩, [], 2, 1⟩ : ConvergenceTable ℚ).stats.running_sum /
                ((⟨⟨1, 1⟩, [], 2, 1⟩ : ConvergenceTable ℚ).stats.paths_done : ℚ)],
              (⟨⟨1, 1⟩, [], 2, 1⟩ : ConvergenceTable ℚ).paths_done)]))) := by
  have hreach : (⟨⟨1, 1⟩, [], 2, 1⟩ : ConvergenceTable ℚ).Reachable :=
    ConvergenceTable.Reachable.step (r := 1) ConvergenceTable.Reachable.init
      (by norm_num [ConvergenceTable.dump_one_result, ConvergenceTable.init,
        StatisticsMean.init, StatisticsMean.dump_one_result])
  exact ⟨hreach, convergence_live_branch _ hreach⟩

/-- Claim C10 counterexample: the fresh table is a reachable state in
which the live branch runs (`paths_done = 0 ≠ stopping_point = 2`) but
the inner `StatisticsMean` fails on no data, so the query returns no row
list at all — not a list one row longer than the (empty) recorded
sequence. -/
theorem convergence_live_branch_cex :
    (ConvergenceTable.init : ConvergenceTable ℚ).Reachable ∧
    ConvergenceTable.get_results_so_far
      (ConvergenceTable.init : ConvergenceTable ℚ) = none :=
  ⟨ConvergenceTable.Reachable.init, by
    norm_num [ConvergenceTable.get_results_so_far, ConvergenceTable.init,
      StatisticsMean.get_results_so_far, StatisticsMean.init]⟩

end StatisticsClaims

section SimulationLemmas

lemma dumpFold_trace (acc : List ℝ) (vs : List ℝ) :
    dumpFold traceDump acc vs = some (acc ++ vs) := by
  induction vs generalizing acc with
  | nil => simp [dumpFold]
  | cons v vs ih => simp [dumpFold, traceDump, ih]

lemma dumpFold_eq_dump_list (t : ConvergenceTable ℝ) (vs : List ℝ) :
    dumpFold ConvergenceTable.dump_one_result t vs = t.dump_list vs := by
  induction vs generalizing t with
  | nil => rfl
  | cons v vs ih =>
      simp only [dumpFold, ConvergenceTable.dump_list]
      cases t.dump_one_result v with
      | none => rfl
      | some u => simpa using ih u

lemma simLoop_eq_dumpFold (g : ℤ → ℕ → ℝ) (option : VanillaOption ℝ)
    (moved_spot root_variance discounting : ℝ) {σ : Type}
    (dump : σ → ℝ → Option σ) (n : ℕ) (gatherer : σ) (rng : RandomState) :
    simLoop g option moved_spot root_variance discounting dump n gatherer rng =
      (dumpFold dump gatherer ((List.range n).map (fun i =>
          discounting * option.calc_pay_off
            (moved_spot *
              Real.exp (root_variance * g rng.seed (rng.idx + i)))))).map
        (fun acc => (acc, ⟨rng.seed, rng.idx + n⟩)) := by
  induction n generalizing gatherer rng with
  | zero => simp [simLoop, dumpFold]
  | succ n ih =>
      have hlist : (List.range (n + 1)).map (fun i =>
          discounting * option.calc_pay_off
            (moved_spot * Real.exp (root_variance * g rng.seed (rng.idx + i)))) =
          (discounting * option.calc_pay_off
            (moved_spot * Real.exp (root_variance * g rng.seed rng.idx))) ::
          (List.range n).map (fun i =>
            discounting * option.calc_pay_off
              (moved_spot *
                Real.exp (root_variance * g rng.seed (rng.idx + 1 + i)))) := by
        rw [List.range_succ_eq_map]
        simp only [List.map_cons, List.map_map, Nat.add_zero]
        congr 1
        apply List.map_congr_left
        intro i _
        simp only [Function.comp]
        have h1 : rng.idx + Nat.succ i = rng.idx + 1 + i := by omega
        rw [h1]
      rw [hlist]
      simp only [simLoop, dumpFold]
      cases hdump : dump gatherer (discounting * option.calc_pay_off
          (moved_spot * Real.exp (root_variance * g rng.seed rng.idx))) with
      | none => simp
      | some g2 =>
          simp only [Option.some_bind]
          rw [ih g2 ⟨rng.seed, rng.idx + 1⟩]
          have hidx : rng.idx + 1 + n = rng.idx + (n + 1) := by omega
          simp [hidx]

lemma option_price_eq (g : ℤ → ℕ → ℝ) (option : VanillaOption ℝ) (spot : ℝ)
    (vol r : Parameters) (number_of_paths : ℤ) {σ : Type}
    (dump : σ → ℝ → Option σ) (gatherer : σ) (seed : Option ℤ)
    (rng : RandomState) :
    Simulation.option_price g option spot vol r number_of_paths dump gatherer
        seed rng =
      (dumpFold dump gatherer ((List.range number_of_paths.toNat).map
          (fun i => specPathValue g option spot vol r
            (RandomState.reseed seed rng).seed
            ((RandomState.reseed seed rng).idx + i)))).map
        (fun acc => (acc, ⟨(RandomState.reseed seed rng).seed,
          (RandomState.reseed seed rng).idx + number_of_paths.toNat⟩)) := by
  simp only [Simulation.option_price]
  rw [simLoop_eq_dumpFold]
  congr 1
  congr 1
  apply List.map_congr_left
  intro i _
  simp only [specPathValue]
  have harg : r.integral 0 option.get_expiry +
      -0.5 * vol.integral_square 0 option.get_expiry =
      r.integral 0 option.get_expiry -
        vol.integral_square 0 option.get_expiry / 2 := by ring
  rw [harg]

lemma ConvergenceTable.dump_list_get {α : Type} [LinearOrderedField α]
    (rs : List α) (h : rs ≠ []) :
    ∃ t, (ConvergenceTable.init : ConvergenceTable α).dump_list rs = some t ∧
      t.get_results_so_far =
        some (t.results_so_far ++ [([rs.sum / (rs.length : α)], rs.length)]) := by
  obtain ⟨k, t, hk, hlt, hdisj, hdl, hstats, hpd, hsp, htags⟩ :=
    ConvergenceTable.dump_list_spec rs
  have hN : 1 ≤ rs.length := List.length_pos.mpr h
  have hget := ConvergenceTable.get_spec (t := t)
    (by rw [hpd, hsp]; exact hlt) (by rw [hstats, hpd]) (by rw [hpd]; exact hN)
  refine ⟨t, hdl, ?_⟩
  rw [hget, hstats, hpd]

lemma option_price_table_last (g : ℤ → ℕ → ℝ) (option : VanillaOption ℝ)
    (spot : ℝ) (vol r : Parameters) (number_of_paths : ℤ)
    (h : 0 < number_of_paths) (seed : Option ℤ) (rng : RandomState) :
    (Simulation.option_price g option spot vol r number_of_paths
        ConvergenceTable.dump_one_result ConvergenceTable.init seed rng).bind
      (fun p => p.1.get_results_so_far.bind
        (fun rows => rows.getLast?.bind (fun row => row.1.head?))) =
      some (((List.range number_of_paths.toNat).map
          (fun i => specPathValue g option spot vol r
            (RandomState.reseed seed rng).seed
            ((RandomState.reseed seed rng).idx + i))).sum /
        (number_of_paths.toNat : ℝ)) := by
  rw [option_price_eq, dumpFold_eq_dump_list]
  have h0 : 0 < number_of_paths.toNat := by omega
  have hne : (List.range number_of_paths.toNat).map
      (fun i => specPathValue g option spot vol r
        (RandomState.reseed seed rng).seed
        ((RandomState.reseed seed rng).idx + i)) ≠ [] := by
    simp [List.range_eq_nil]
    omega
  obtain ⟨t, hdl, hget⟩ := ConvergenceTable.dump_list_get _ hne
  rw [Option.bind_map]
  rw [hdl]
  simp only [Option.some_bind, Function.comp]
  rw [hget]
  simp only [Option.some_bind, List.getLast?_concat]
  simp

end SimulationLemmas

section SimulationClaims

/-- Claim C2: for every option, spot, vol and rate parameters and every
positive path count, `Simulation.option_price` feeds exactly
`number_of_paths` values to the gatherer, and the i-th fed value is
`exp(-R) * payoff(spot * exp(R - V/2) * exp(sqrt(V) * z_i))` with
`R = rate.integral(0, expiry)`, `V = vol.integral_square(0, expiry)` and
`z_i` the i-th standard normal draw from the (re)seeded random source. -/
theorem option_price_feeds_exact_values (g : ℤ → ℕ → ℝ)
    (option : VanillaOption ℝ) (spot : ℝ) (vol r : Parameters)
    (number_of_paths : ℤ) (h : 0 < number_of_paths) {σ : Type}
    (dump : σ → ℝ → Option σ) (gatherer : σ) (seed : Option ℤ)
    (rng : RandomState) :
    Simulation.option_price g option spot vol r number_of_paths dump gatherer
        seed rng =
      (dumpFold dump gatherer ((List.range number_of_paths.toNat).map
          (fun i => specPathValue g option spot vol r
            (RandomState.reseed seed rng).seed
            ((RandomState.reseed seed rng).idx + i)))).map
        (fun acc => (acc, ⟨(RandomState.reseed seed rng).seed,
          (RandomState.reseed seed rng).idx + number_of_paths.toNat⟩)) ∧
    ((List.range number_of_paths.toNat).map
        (fun i => specPathValue g option spot vol r
          (RandomState.reseed seed rng).seed
          ((RandomState.reseed seed rng).idx + i))).length =
      number_of_paths.toNat ∧
    (number_of_paths.toNat : ℤ) = number_of_paths :=
  ⟨option_price_eq g option spot vol r number_of_paths dump gatherer seed rng,
   by simp, Int.toNat_of_nonneg h.le⟩

/-- Witness for the C2 theorem: one path, the zero draw stream, a call
struck at 0 with zero expiry, the trace gatherer. -/
theorem option_price_feeds_exact_values_witness :
    (0 : ℤ) < 1 ∧
    (Simulation.option_price gZero optZero 1 (ParametersConstant 0)
        (ParametersConstant 0) 1 traceDump [] (some 0) rngZero =
      (dumpFold traceDump [] ((List.range (1 : ℤ).toNat).map
          (fun i => specPathValue gZero optZero 1 (ParametersConstant 0)
            (ParametersConstant 0) (RandomState.reseed (some 0) rngZero).seed
            ((RandomState.reseed (some 0) rngZero).idx + i)))).map
        (fun acc => (acc, ⟨(RandomState.reseed (some 0) rngZero).seed,
          (RandomState.reseed (some 0) rngZero).idx + (1 : ℤ).toNat⟩)) ∧
    ((List.range (1 : ℤ).toNat).map
        (fun i => specPathValue gZero optZero 1 (ParametersConstant 0)
          (ParametersConstant 0) (RandomState.reseed (some 0) rngZero).seed
          ((RandomState.reseed (some 0) rngZero).idx + i))).length =
      (1 : ℤ).toNat ∧
    (((1 : ℤ).toNat : ℤ)) = 1) :=
  ⟨by norm_num,
   option_price_feeds_exact_values gZero optZero 1 (ParametersConstant 0)
     (ParametersConstant 0) 1 (by norm_num) traceDump [] (some 0) rngZero⟩

/-- Claim C5: two pricing calls with identical strike, expiry, spot, vol,
rate, path count and the same non-None seed produce bit-identical
results, whatever the ambient random-source states were before each
call: seeding at the top of `option_price` makes the fed sequence a
function of the inputs and the seed alone. -/
theorem pricing_deterministic_with_seed (g : ℤ → ℕ → ℝ)
    (strike expiry spot vol r : ℝ) (number_of_paths : ℤ) (s : ℤ)
    (rng1 rng2 : RandomState) :
    CalcEuropeanOption.call_price_stats g strike expiry spot vol r
        number_of_paths (some s) rng1 =
      CalcEuropeanOption.call_price_stats g strike expiry spot vol r
        number_of_paths (some s) rng2 ∧
    CalcEuropeanOption.put_price_stats g strike expiry spot vol r
        number_of_paths (some s) rng1 =
      CalcEuropeanOption.put_price_stats g strike expiry spot vol r
        number_of_paths (some s) rng2 :=
  ⟨rfl, rfl⟩

/-- Claim C8 (amended): for non-positive `number_of_paths` the
simulation silently performs zero iterations — `range(n)` is empty — and
returns successfully with the gatherer untouched; no precondition check
exists and no explicit failure is surfaced. -/
theorem nonpositive_paths_silent (g : ℤ → ℕ → ℝ) (option : VanillaOption ℝ)
    (spot : ℝ) (vol r : Parameters) (number_of_paths : ℤ)
    (h : number_of_paths ≤ 0) {σ : Type} (dump : σ → ℝ → Option σ)
    (gatherer : σ) (seed : Option ℤ) (rng : RandomState) :
    Simulation.option_price g option spot vol r number_of_paths dump gatherer
        seed rng = some (gatherer, RandomState.reseed seed rng) := by
  simp only [Simulation.option_price, Int.toNat_of_nonpos h]
  rfl

/-- Witness for the C8 theorem at `number_of_paths = -1`. -/
theorem nonpositive_paths_silent_witness :
    (-1 : ℤ) ≤ 0 ∧
    Simulation.option_price gZero optZero 1 (ParametersConstant 0)
        (ParametersConstant 0) (-1) traceDump [] (some 0) rngZero =
      some ([], RandomState.reseed (some 0) rngZero) :=
  ⟨by norm_num,
   nonpositive_paths_silent gZero optZero 1 (ParametersConstant 0)
     (ParametersConstant 0) (-1) (by norm_num) traceDump [] (some 0) rngZero⟩

/-- Claim C8 counterexample: at `number_of_paths = 0` the call returns
successfully with an empty trace — zero iterations were performed
silently, no explicit failure was surfaced to the caller. -/
theorem nonpositive_paths_silent_cex :
    Simulation.option_price gZero optZero 1 (ParametersConstant 0)
        (ParametersConstant 0) 0 traceDump [] (some 0) rngZero =
      some ([], ⟨0, 0⟩) := rfl

/-- Claim C3 (amended): `call_price` / `put_price` invoke the `*_stats`
variant and return the value of the last row of the returned table.
That last row is the unconditionally appended live row tagged with the
full path count, whose value is the mean of all `N` fed (discounted
payoff) values; it is not one of the persisted recorded rows, and it
coincides with the last recorded row's value only when `N` is a
doubling value. -/
theorem price_is_final_live_mean (g : ℤ → ℕ → ℝ)
    (strike expiry spot vol r : ℝ) (number_of_paths : ℤ)
    (h : 0 < number_of_paths) (seed : Option ℤ) (rng : RandomState) :
    CalcEuropeanOption.call_price g strike expiry spot vol r number_of_paths
        seed rng =
      some (((List.range number_of_paths.toNat).map
          (fun i => specPathValue g ⟨expiry, PayOff.call strike⟩ spot
            (ParametersConstant vol) (ParametersConstant r)
            (RandomState.reseed seed rng).seed
            ((RandomState.reseed seed rng).idx + i))).sum /
        (number_of_paths.toNat : ℝ)) ∧
    CalcEuropeanOption.put_price g strike expiry spot vol r number_of_paths
        seed rng =
      some (((List.range number_of_paths.toNat).map
          (fun i => specPathValue g ⟨expiry, PayOff.put strike⟩ spot
            (ParametersConstant vol) (ParametersConstant r)
            (RandomState.reseed seed rng).seed
            ((RandomState.reseed seed rng).idx + i))).sum /
        (number_of_paths.toNat : ℝ)) :=
  ⟨option_price_table_last g ⟨expiry, PayOff.call strike⟩ spot
     (ParametersConstant vol) (ParametersConstant r) number_of_paths h seed rng,
   option_price_table_last g ⟨expiry, PayOff.put strike⟩ spot
     (ParametersConstant vol) (ParametersConstant r) number_of_paths h seed rng⟩

/-- Witness for the C3 theorem with one path and degenerate market
parameters. -/
theorem price_is_final_live_mean_witness :
    (0 : ℤ) < 1 ∧
    (CalcEuropeanOption.call_price gZero 0 0 1 0 0 1 (some 0) rngZero =
      some (((List.range (1 : ℤ).toNat).map
          (fun i => specPathValue gZero ⟨0, PayOff.call 0⟩ 1
            (ParametersConstant 0) (ParametersConstant 0)
            (RandomState.reseed (some 0) rngZero).seed
            ((RandomState.reseed (some 0) rngZero).idx + i))).sum /
        ((1 : ℤ).toNat : ℝ)) ∧
    CalcEuropeanOption.put_price gZero 0 0 1 0 0 1 (some 0) rngZero =
      some (((List.range (1 : ℤ).toNat).map
          (fun i => specPathValue gZero ⟨0, PayOff.put 0⟩ 1
            (ParametersConstant 0) (ParametersConstant 0)
            (RandomState.reseed (some 0) rngZero).seed
            ((RandomState.reseed (some 0) rngZero).idx + i))).sum /
        ((1 : ℤ).toNat : ℝ))) :=
  ⟨by norm_num,
   price_is_final_live_mean gZero 0 0 1 0 0 1 (by norm_num) (some 0) rngZero⟩

/-- Claim C3 counterexample: with `strike = expiry = spot = vol = 1`,
`rate = 0`, three paths and standard-normal draws `0, 0, 1`, the table
records exactly one row, tagged 2, with value 0 (both first paths expire
worthless), yet `call_price` returns `(exp(1/2) - 1) / 3 ≠ 0` — the
live-row mean over all three paths, not the value of the last recorded
row. -/
theorem price_is_final_live_mean_cex :
    (CalcEuropeanOption.call_price_stats gThird 1 1 1 1 0 3 (some 0)
        rngZero).map
      (fun p => (p.1.results_so_far.map Prod.snd,
        p.1.results_so_far.getLast?.bind (fun row => row.1.head?))) =
      some ([2], some 0) ∧
    CalcEuropeanOption.call_price gThird 1 1 1 1 0 3 (some 0) rngZero =
      some ((Real.exp (1 / 2) - 1) / 3) ∧
    (Real.exp (1 / 2) - 1) / 3 ≠ 0 := by
  have hone_lt : (1 : ℝ) < Real.exp (1 / 2) :=
    Real.one_lt_exp_iff.mpr (by norm_num)
  have hle_one : Real.exp (-(1 / 2) : ℝ) ≤ 1 :=
    Real.exp_le_one_iff.mpr (by norm_num)
  have hvs : (List.range (3 : ℤ).toNat).map
      (fun i => specPathValue gThird ⟨1, PayOff.call 1⟩ 1
        (ParametersConstant 1) (ParametersConstant 0)
        (RandomState.reseed (some 0) rngZero).seed
        ((RandomState.reseed (some 0) rngZero).idx + i)) =
      [0, 0, Real.exp (1 / 2) - 1] := by
    have hr : List.range (3 : ℤ).toNat = [0, 1, 2] := rfl
    rw [hr]
    simp only [List.map_cons, List.map_nil, specPathValue, ParametersConstant,
      VanillaOption.get_expiry, VanillaOption.calc_pay_off, PayOff.calc,
      gThird, RandomState.reseed, rngZero]
    norm_num [Real.sqrt_one, Real.exp_zero]
    have h2 : Real.exp (-(1 / 2) : ℝ) * Real.exp 1 = Real.exp (1 / 2) := by
      rw [← Real.exp_add]; norm_num
    rw [h2, max_eq_left (by linarith)]
  have htab : CalcEuropeanOption.call_price_stats gThird 1 1 1 1 0 3 (some 0)
      rngZero =
      some (⟨⟨Real.exp (1 / 2) - 1, 3⟩, [([0], 2)], 4, 3⟩, ⟨0, 3⟩) := by
    show Simulation.option_price gThird ⟨1, PayOff.call 1⟩ 1
      (ParametersConstant 1) (ParametersConstant 0) 3
      ConvergenceTable.dump_one_result ConvergenceTable.init (some 0) rngZero =
      some (⟨⟨Real.exp (1 / 2) - 1, 3⟩, [([0], 2)], 4, 3⟩, ⟨0, 3⟩)
    rw [option_price_eq, dumpFold_eq_dump_list, hvs]
    have hdl : (ConvergenceTable.init : ConvergenceTable ℝ).dump_list
        [0, 0, Real.exp (1 / 2) - 1] =
        some ⟨⟨Real.exp (1 / 2) - 1, 3⟩, [([0], 2)], 4, 3⟩ := by
      norm_num [ConvergenceTable.dump_list, ConvergenceTable.dump_one_result,
        ConvergenceTable.init, StatisticsMean.init,
        StatisticsMean.dump_one_result, StatisticsMean.get_results_so_far]
    rw [hdl]
    rfl
  have hpos : (0 : ℝ) < (Real.exp (1 / 2) - 1) / 3 :=
    div_pos (by linarith) (by norm_num)
  refine ⟨?_, ?_, ?_⟩
  · rw [htab]
    rfl
  · show (CalcEuropeanOption.call_price_stats gThird 1 1 1 1 0 3 (some 0)
        rngZero).bind
      (fun p => p.1.get_results_so_far.bind
        (fun rows => rows.getLast?.bind (fun row => row.1.head?))) = _
    rw [htab]
    simp only [Option.some_bind]
    norm_num [ConvergenceTable.get_results_so_far,
      StatisticsMean.get_results_so_far]
  · exact ne_of_gt hpos

end SimulationClaims

end OptionsPricing
